import Mathlib

/-!
Verification development for the RelNo noise library (C++ sources under
NoiseMaps/).  The multi-octave coherent-noise core is shallowly embedded:
C++ float arithmetic is modelled by exact rationals, vectors by lists,
exceptions by Except, and the non-deterministic entropy source used for
negative seeds by an explicit entropy parameter.  Definitions follow the
C++ sources PerlinNoise.cpp, SimplexNoise.cpp and CaveNoise.cpp; the
standard-library pieces the sources call (std::mt19937, std::shuffle) and
the sampling unit that defines sample_perlin (absent from the sources,
only declared and called) are modelled from the specification, as marked
in their doc comments.
-/

namespace Noise

/-- Word mask of the 32-bit Mersenne twister: all arithmetic is mod 2^32. -/
def mtM : ℕ := 2 ^ 32

/-- Modelled from the spec: the constructors seed a deterministic PRNG
(std::mt19937, a C++ standard-library component not part of this
repository).  This is the standard mersenne_twister_engine state
initialisation: x0 = seed, x_i = 1812433253 * (x_{i-1} xor (x_{i-1} >> 30)) + i. -/
def mtInitAux (seed : ℕ) : ℕ → ℕ
  | 0 => seed % mtM
  | i + 1 =>
      let prev := mtInitAux seed i
      (1812433253 * (prev ^^^ (prev >>> 30)) + (i + 1)) % mtM

/-- Initial 624-word state of the seeded Mersenne twister. -/
def mtInitState (seed : ℕ) : List ℕ :=
  (List.range 624).map (mtInitAux seed)

/-- One in-place step of the Mersenne-twister state regeneration. -/
def mtTwistStep (st : List ℕ) (i : ℕ) : List ℕ :=
  let x := (st.getD i 0 &&& 0x80000000) + (st.getD ((i + 1) % 624) 0 &&& 0x7FFFFFFF)
  let xA := if x % 2 = 1 then (x >>> 1) ^^^ 0x9908B0DF else x >>> 1
  st.set i ((st.getD ((i + 397) % 624) 0) ^^^ xA)

/-- Full state regeneration (the twist) of the Mersenne twister. -/
def mtTwist (st : List ℕ) : List ℕ :=
  (List.range 624).foldl mtTwistStep st

/-- Output tempering of the Mersenne twister. -/
def mtTemper (y0 : ℕ) : ℕ :=
  let y1 := y0 ^^^ (y0 >>> 11)
  let y2 := y1 ^^^ ((y1 <<< 7) &&& 0x9D2C5680)
  let y3 := y2 ^^^ ((y2 <<< 15) &&& 0xEFC60000)
  (y3 ^^^ (y3 >>> 18)) % mtM

/-- State of a running Mersenne-twister generator: next output index and
the 624-word state. -/
structure MTState where
  idx : ℕ
  st : List ℕ

/-- Draw one 32-bit output from the generator. -/
def mtNext (g : MTState) : ℕ × MTState :=
  let g2 := if 624 ≤ g.idx then MTState.mk 0 (mtTwist g.st) else g
  (mtTemper (g2.st.getD g2.idx 0), MTState.mk (g2.idx + 1) g2.st)

/-- Freshly seeded generator (the first draw triggers a twist). -/
def mtOfSeed (seed : ℕ) : MTState := MTState.mk 624 (mtInitState seed)

/-- Swap two positions of a list (out-of-range positions are left alone,
matching the always-in-range use below). -/
def listSwap (l : List ℕ) (a b : ℕ) : List ℕ :=
  (l.set a (l.getD b 0)).set b (l.getD a 0)

/-- Modelled from the spec: the constructors shuffle the identity table
with std::shuffle (a C++ standard-library component not part of this
repository) driven by the seeded PRNG.  This is a Fisher-Yates pass from
the top of the table down; std::shuffle's exact draw sequence is
implementation-defined, its seed-determinism is what matters here. -/
def shuffleAux (g : MTState) (l : List ℕ) : ℕ → List ℕ
  | 0 => l
  | c + 1 =>
      let r := mtNext g
      let j := r.1 % (c + 2)
      shuffleAux r.2 (listSwap l (c + 1) j) c

/-- The shuffled 256-entry permutation produced from a PRNG seed value. -/
def mkPerm (seedVal : ℕ) : List ℕ :=
  shuffleAux (mtOfSeed seedVal) (List.range 256) 255

/-- Base 256-entry permutation of a generator: a nonnegative seed seeds the
deterministic PRNG; a negative seed uses system entropy, modelled by the
explicit entropy argument (PerlinNoise.cpp lines 15-28, SimplexNoise.cpp
lines 25-39). -/
def baseTableOf (seed : ℤ) (entropy : ℕ) : List ℕ :=
  if 0 ≤ seed then mkPerm seed.toNat else mkPerm entropy

/-- Permutation table of a PerlinNoise generator: the base table duplicated
to length 512 (PerlinNoise.cpp line 31, p.insert(p.end(), p.begin(), p.end())). -/
def perlinTableOf (seed : ℤ) (entropy : ℕ) : List ℕ :=
  let b := baseTableOf seed entropy
  b ++ b

/-- Permutation table of a SimplexNoise generator: perm[i] = p[i & 255] for
i in [0,512) (SimplexNoise.cpp lines 41-42). -/
def simplexTableOf (seed : ℤ) (entropy : ℕ) : List ℕ :=
  let b := baseTableOf seed entropy
  (List.range 512).map (fun i => b.getD (i &&& 255) 0)

/-- Quintic fade curve (PerlinNoise.cpp line 38): t*t*t*(t*(t*6-15)+10). -/
def fade (t : ℚ) : ℚ := t * t * t * (t * (t * 6 - 15) + 10)

/-- Linear interpolation (PerlinNoise.cpp line 42): a + t*(b-a). -/
def lerp (a b t : ℚ) : ℚ := a + t * (b - a)

/-- Gradient dot product from a 2-bit hash (PerlinNoise.cpp lines 45-50). -/
def grad (hash : ℕ) (x y : ℚ) : ℚ :=
  let h := hash &&& 3
  let u := if h < 2 then x else y
  let v := if h < 2 then y else x
  (if h &&& 1 ≠ 0 then -u else u) + (if h &&& 2 ≠ 0 then -v else v)

/-- C++ computation (int)std::floor(x) & 255 on a 32-bit int, as used by
both noise kernels to reduce a lattice coordinate to a table index
(PerlinNoise.cpp lines 56-57, SimplexNoise.cpp lines 68-69): the int is
wrapped to its two's-complement bit pattern and the low 8 bits are kept. -/
def intMask255 (i : ℤ) : ℕ := (i.emod (2 ^ 32)).toNat &&& 255

/-- Permutation-table read p[i]; the C++ code performs an unchecked vector
read, which is in bounds for every index the kernels build (proved below),
so the default value 0 is never produced on those reads. -/
def permAt (p : List ℕ) (i : ℕ) : ℕ := p.getD i 0

/-- Core 2D Perlin noise kernel (PerlinNoise.cpp lines 55-73), value
rescaled to (v+1)/2 at the end. -/
def noise (p : List ℕ) (x y : ℚ) : ℚ :=
  let X := intMask255 ⌊x⌋
  let Y := intMask255 ⌊y⌋
  let xf : ℚ := x - ⌊x⌋
  let yf : ℚ := y - ⌊y⌋
  let u := fade xf
  let v := fade yf
  let aa := permAt p (permAt p X + Y)
  let ab := permAt p (permAt p X + Y + 1)
  let ba := permAt p (permAt p (X + 1) + Y)
  let bb := permAt p (permAt p (X + 1) + Y + 1)
  let x1 := lerp (grad aa xf yf) (grad ba (xf - 1) yf) u
  let x2 := lerp (grad ab xf (yf - 1)) (grad bb (xf - 1) (yf - 1)) u
  (lerp x1 x2 v + 1) / 2

/-- Octave accumulation for one grid cell of generate_perlin_map
(PerlinNoise.cpp lines 112-123): the source iterates octaves in the outer
loop adding amplitude-weighted samples into each cell; per cell that is
exactly this recursion on (amplitude, frequency). -/
def octaveLoop (tbl : List ℕ) (x y scale persistence lacunarity base : ℚ) :
    ℕ → ℚ → ℚ → ℚ
  | 0, _, _ => 0
  | o + 1, amp, freq =>
      let nx := (x + base) / scale * freq
      let ny := (y + base) / scale * freq
      noise tbl nx ny * amp +
        octaveLoop tbl x y scale persistence lacunarity base o
          (amp * persistence) (freq * lacunarity)

/-- Amplitude accumulation maxAmplitude += amplitude; amplitude *= persistence
per octave (PerlinNoise.cpp lines 120-121, SimplexNoise.cpp lines 141-142). -/
def ampLoop (persistence : ℚ) : ℕ → ℚ → ℚ
  | 0, _ => 0
  | o + 1, amp => amp + ampLoop persistence o (amp * persistence)

/-- Total accumulated amplitude over all octaves, the normalisation divisor
of both map generators (initial amplitude 1). -/
def maxAmplitude (persistence : ℚ) (octaves : ℕ) : ℚ :=
  ampLoop persistence octaves 1

/-- One cell of the Perlin map: accumulated octaves divided by the
accumulated amplitude (PerlinNoise.cpp lines 108-129). -/
def perlinCell (tbl : List ℕ) (x y : ℕ) (scale : ℚ) (octaves : ℕ)
    (frequency persistence lacunarity base : ℚ) : ℚ :=
  octaveLoop tbl (x : ℚ) (y : ℚ) scale persistence lacunarity base octaves 1 frequency /
    maxAmplitude persistence octaves

/-- Multi-octave Perlin map generator (PerlinNoise.cpp lines 78-132):
parameter validation in source order, then a height-by-width grid of
normalised cells from one generator constructed from the seed. -/
def generate_perlin_map (width height : ℤ) (scale : ℚ) (octaves : ℤ)
    (frequency persistence lacunarity base : ℚ) (seed : ℤ) (entropy : ℕ) :
    Except String (List (List ℚ)) :=
  if width ≤ 0 then Except.error "width must be > 0"
  else if height ≤ 0 then Except.error "height must be > 0"
  else if scale ≤ 0 then Except.error "scale must be > 0"
  else if octaves < 1 then Except.error "octaves must be >= 1"
  else if frequency ≤ 0 then Except.error "frequency must be > 0"
  else if persistence < 0 ∨ 1 < persistence then Except.error "persistence must be in [0,1]"
  else if lacunarity ≤ 0 then Except.error "lacunarity must be > 0"
  else
    Except.ok ((List.range height.toNat).map fun y =>
      (List.range width.toNat).map fun x =>
        perlinCell (perlinTableOf seed entropy) x y scale octaves.toNat
          frequency persistence lacunarity base)

/-- Simplex skew factor, the float literal of SimplexNoise.hpp line 26. -/
def F2 : ℚ := 0.36602540378

/-- Simplex unskew factor, the float literal of SimplexNoise.hpp line 27. -/
def G2 : ℚ := 0.2113248654

/-- The 8 gradient directions of SimplexNoise.hpp lines 21-24. -/
def grad3 : List (ℚ × ℚ) :=
  [(1, 1), (-1, 1), (1, -1), (-1, -1), (1, 0), (-1, 0), (0, 1), (0, -1)]

/-- Radial corner contribution of the simplex kernel
(SimplexNoise.cpp lines 77-93): zero once 0.5 - x^2 - y^2 goes negative. -/
def simplexContrib (gi : ℕ) (xx yy : ℚ) : ℚ :=
  let t0 := 1 / 2 - xx * xx - yy * yy
  if t0 < 0 then 0
  else
    let t1 := t0 * t0
    let g := grad3.getD gi (0, 0)
    t1 * t1 * (g.1 * xx + g.2 * yy)

/-- Core 2D simplex noise kernel (SimplexNoise.cpp lines 48-97). -/
def noise2D (perm : List ℕ) (xin yin : ℚ) : ℚ :=
  let s := (xin + yin) * F2
  let i : ℤ := ⌊xin + s⌋
  let j : ℤ := ⌊yin + s⌋
  let t : ℚ := ((i : ℚ) + (j : ℚ)) * G2
  let x0 := xin - ((i : ℚ) - t)
  let y0 := yin - ((j : ℚ) - t)
  let i1 : ℕ := if y0 < x0 then 1 else 0
  let j1 : ℕ := if y0 < x0 then 0 else 1
  let x1 := x0 - (i1 : ℚ) + G2
  let y1 := y0 - (j1 : ℚ) + G2
  let x2 := x0 - 1 + 2 * G2
  let y2 := y0 - 1 + 2 * G2
  let ii := intMask255 i
  let jj := intMask255 j
  let gi0 := permAt perm (ii + permAt perm jj) % 8
  let gi1 := permAt perm (ii + i1 + permAt perm (jj + j1)) % 8
  let gi2 := permAt perm (ii + 1 + permAt perm (jj + 1)) % 8
  70 * (simplexContrib gi0 x0 y0 + simplexContrib gi1 x1 y1 + simplexContrib gi2 x2 y2)

/-- Octave accumulation for one cell of generate_simplex_map
(SimplexNoise.cpp lines 133-144). -/
def simplexOctaveLoop (tbl : List ℕ) (x y scale persistence lacunarity base : ℚ) :
    ℕ → ℚ → ℚ → ℚ
  | 0, _, _ => 0
  | o + 1, amp, freq =>
      let nx := (x + base) / scale * freq
      let ny := (y + base) / scale * freq
      noise2D tbl nx ny * amp +
        simplexOctaveLoop tbl x y scale persistence lacunarity base o
          (amp * persistence) (freq * lacunarity)

/-- One cell of the simplex map: (sum / maxAmp) * 0.5 + 0.5
(SimplexNoise.cpp lines 147-149); the octave frequency starts at 1. -/
def simplexCell (tbl : List ℕ) (x y : ℕ) (scale : ℚ) (octaves : ℕ)
    (persistence lacunarity base : ℚ) : ℚ :=
  simplexOctaveLoop tbl (x : ℚ) (y : ℚ) scale persistence lacunarity base octaves 1 1 /
      maxAmplitude persistence octaves * (1 / 2) + 1 / 2

/-- Multi-octave simplex map generator (SimplexNoise.cpp lines 102-152):
same validation chain as the Perlin generator except that it has no
frequency parameter. -/
def generate_simplex_map (width height : ℤ) (scale : ℚ) (octaves : ℤ)
    (persistence lacunarity base : ℚ) (seed : ℤ) (entropy : ℕ) :
    Except String (List (List ℚ)) :=
  if width ≤ 0 then Except.error "width must be > 0"
  else if height ≤ 0 then Except.error "height must be > 0"
  else if scale ≤ 0 then Except.error "scale must be > 0"
  else if octaves < 1 then Except.error "octaves must be >= 1"
  else if persistence < 0 ∨ 1 < persistence then Except.error "persistence must be in [0,1]"
  else if lacunarity ≤ 0 then Except.error "lacunarity must be > 0"
  else
    Except.ok ((List.range height.toNat).map fun y =>
      (List.range width.toNat).map fun x =>
        simplexCell (simplexTableOf seed entropy) x y scale octaves.toNat
          persistence lacunarity base)

/-- Truth of an Except result, mirroring whether the C++ call returns
normally instead of throwing. -/
def exceptOk {ε α : Type} : Except ε α → Bool
  | Except.ok _ => true
  | Except.error _ => false

/-- Modelled from the spec: the single-coordinate fractal sampler
sample_perlin is declared and called in CaveNoise.cpp (lines 18-20) and the
example programs but its defining translation unit is not among the
sources.  Spec section 4.4 (FractalSampler): octave o samples the kernel at
((x+base)/scale * frequency_o, (y+base)/scale * frequency_o) weighted by
amplitude_o, with amplitude starting at 1 and multiplied by persistence
each octave (hence persistence^o) and frequency multiplied by lacunarity
each octave (hence frequency * lacunarity^o); the result is the weighted
sum divided by the accumulated amplitude. -/
def sample_perlin (x y scale : ℚ) (octaves : ℤ)
    (frequency persistence lacunarity base : ℚ) (seed : ℤ) (entropy : ℕ) : ℚ :=
  let tbl := perlinTableOf seed entropy
  (∑ o ∈ Finset.range octaves.toNat,
      persistence ^ o *
        noise tbl ((x + base) / scale * (frequency * lacunarity ^ o))
          ((y + base) / scale * (frequency * lacunarity ^ o))) /
    ∑ o ∈ Finset.range octaves.toNat, persistence ^ o

/-- Cave generation parameters (CaveNoise.hpp lines 22-49); fields in
source order, image-output fields omitted as they do not reach sampling. -/
structure CaveParams where
  scale : ℚ
  octaves : ℤ
  persistence : ℚ
  lacunarity : ℚ
  seed : ℤ
  threshold : ℚ
  invertThreshold : Bool
  smoothingIterations : ℤ
  birthLimit : ℤ
  deathLimit : ℤ
  removeSmallRegions : Bool
  minRegionSize : ℤ

/-- Cave density at one coordinate (CaveNoise.cpp lines 97-103):
sample_perlin with frequency 1 and base 0. -/
def sample_cave_density (x y : ℚ) (params : CaveParams) (entropy : ℕ) : ℚ :=
  sample_perlin x y params.scale params.octaves 1 params.persistence
    params.lacunarity 0 params.seed entropy

/-- Boolean cave sample (CaveNoise.cpp lines 105-113): threshold the
density, direction depending on invertThreshold. -/
def sample_cave (x y : ℚ) (params : CaveParams) (entropy : ℕ) : Bool :=
  let density := sample_cave_density x y params entropy
  if params.invertThreshold then decide (density < params.threshold)
  else decide (params.threshold < density)

/-- Chunk generation (CaveNoise.cpp lines 356-379): a chunkSize-square grid
of sample_cave values at world coordinates chunk index times chunk size
plus local cell. -/
def generate_cave_chunk (chunkX chunkY chunkSize : ℤ) (params : CaveParams)
    (entropy : ℕ) : List (List Bool) :=
  (List.range chunkSize.toNat).map fun (y : ℕ) =>
    (List.range chunkSize.toNat).map fun (x : ℕ) =>
      sample_cave (((chunkX * chunkSize : ℤ) : ℚ) + (x : ℚ))
        (((chunkY * chunkSize : ℤ) : ℚ) + (y : ℚ)) params entropy

/-- The quintic fade polynomial exactly as the spec writes it
(spec section 4.2 step 3): 6 t^5 - 15 t^4 + 10 t^3. -/
def specFade (t : ℚ) : ℚ := 6 * t ^ 5 - 15 * t ^ 4 + 10 * t ^ 3

/-- The gradient vector selected by a 2-bit hash, as the spec describes the
axis-aligned/diagonal gradient set of the Perlin kernel (spec section 4.2
step 4); values 1 and 2 both name the (-1,1) direction in the source. -/
def specGradVec (h : ℕ) : ℚ × ℚ :=
  if h = 0 then (1, 1)
  else if h = 1 then (-1, 1)
  else if h = 2 then (-1, 1)
  else (-1, -1)

/-- The Perlin kernel recomposed from the spec's description (spec section
4.2): floor lattice cell, fractional offsets, quintic fade of both axes,
double permutation lookup p[p[X]+Y] at the four corners, gradient chosen by
the 2-bit hash, bilinear combination of the four corner dot products with
the faded weights, and final rescale (v+1)/2. -/
def specNoise (p : List ℕ) (x y : ℚ) : ℚ :=
  let X := intMask255 ⌊x⌋
  let Y := intMask255 ⌊y⌋
  let xf : ℚ := x - ⌊x⌋
  let yf : ℚ := y - ⌊y⌋
  let u := specFade xf
  let v := specFade yf
  let aa := permAt p (permAt p X + Y)
  let ab := permAt p (permAt p X + Y + 1)
  let ba := permAt p (permAt p (X + 1) + Y)
  let bb := permAt p (permAt p (X + 1) + Y + 1)
  let n00 := (specGradVec (aa &&& 3)).1 * xf + (specGradVec (aa &&& 3)).2 * yf
  let n10 := (specGradVec (ba &&& 3)).1 * (xf - 1) + (specGradVec (ba &&& 3)).2 * yf
  let n01 := (specGradVec (ab &&& 3)).1 * xf + (specGradVec (ab &&& 3)).2 * (yf - 1)
  let n11 := (specGradVec (bb &&& 3)).1 * (xf - 1) + (specGradVec (bb &&& 3)).2 * (yf - 1)
  ((1 - u) * (1 - v) * n00 + u * (1 - v) * n10 + (1 - u) * v * n01 + u * v * n11 + 1) / 2

/-! Helper lemmas shared by the claim theorems. -/

theorem rangeMapGetD {α : Type} (n : ℕ) (f : ℕ → α) (i : ℕ) (d : α) (h : i < n) :
    ((List.range n).map f).getD i d = f i := by
  have hlen : i < ((List.range n).map f).length := by simpa using h
  rw [List.getD_eq_getElem _ _ hlen]
  simp

theorem baseTableOf_congr (seed : ℤ) (e1 e2 : ℕ) (h : 0 ≤ seed) :
    baseTableOf seed e1 = baseTableOf seed e2 := by
  simp [baseTableOf, if_pos h]

theorem perlinTableOf_congr (seed : ℤ) (e1 e2 : ℕ) (h : 0 ≤ seed) :
    perlinTableOf seed e1 = perlinTableOf seed e2 := by
  simp only [perlinTableOf, baseTableOf_congr seed e1 e2 h]

theorem simplexTableOf_congr (seed : ℤ) (e1 e2 : ℕ) (h : 0 ≤ seed) :
    simplexTableOf seed e1 = simplexTableOf seed e2 := by
  simp only [simplexTableOf, baseTableOf_congr seed e1 e2 h]

theorem ampLoop_closed (persistence : ℚ) (n : ℕ) :
    ∀ amp : ℚ, ampLoop persistence n amp = ∑ o ∈ Finset.range n, amp * persistence ^ o := by
  induction n with
  | zero => intro amp; simp [ampLoop]
  | succ m ih =>
      intro amp
      rw [ampLoop, ih (amp * persistence), Finset.sum_range_succ']
      simp only [pow_zero, mul_one, pow_succ]
      rw [add_comm]
      congr 1
      refine Finset.sum_congr rfl fun o _ => ?_
      ring

theorem octaveLoop_closed (tbl : List ℕ) (x y scale persistence lacunarity base : ℚ)
    (n : ℕ) : ∀ amp freq : ℚ,
    octaveLoop tbl x y scale persistence lacunarity base n amp freq =
      ∑ o ∈ Finset.range n,
        amp * persistence ^ o *
          noise tbl ((x + base) / scale * (freq * lacunarity ^ o))
            ((y + base) / scale * (freq * lacunarity ^ o)) := by
  induction n with
  | zero => intro amp freq; simp [octaveLoop]
  | succ m ih =>
      intro amp freq
      rw [octaveLoop, ih (amp * persistence) (freq * lacunarity), Finset.sum_range_succ']
      simp only [pow_zero, mul_one, pow_succ]
      rw [add_comm]
      congr 1
      · refine Finset.sum_congr rfl fun o _ => ?_
        have hfr : freq * lacunarity * lacunarity ^ o = freq * (lacunarity ^ o * lacunarity) := by
          ring
        rw [hfr]
        ring_nf
      · ring

theorem simplexOctaveLoop_closed (tbl : List ℕ) (x y scale persistence lacunarity base : ℚ)
    (n : ℕ) : ∀ amp freq : ℚ,
    simplexOctaveLoop tbl x y scale persistence lacunarity base n amp freq =
      ∑ o ∈ Finset.range n,
        amp * persistence ^ o *
          noise2D tbl ((x + base) / scale * (freq * lacunarity ^ o))
            ((y + base) / scale * (freq * lacunarity ^ o)) := by
  induction n with
  | zero => intro amp freq; simp [simplexOctaveLoop]
  | succ m ih =>
      intro amp freq
      rw [simplexOctaveLoop, ih (amp * persistence) (freq * lacunarity),
        Finset.sum_range_succ']
      simp only [pow_zero, mul_one, pow_succ]
      rw [add_comm]
      congr 1
      · refine Finset.sum_congr rfl fun o _ => ?_
        have hfr : freq * lacunarity * lacunarity ^ o = freq * (lacunarity ^ o * lacunarity) := by
          ring
        rw [hfr]
        ring_nf
      · ring

theorem permAt_lt (p : List ℕ) (i : ℕ) (hent : ∀ v ∈ p, v < 256) :
    permAt p i < 256 := by
  unfold permAt
  by_cases h : i < p.length
  · rw [List.getD_eq_getElem p 0 h]
    exact hent _ (List.getElem_mem h)
  · rw [List.getD_eq_default p 0 (le_of_not_lt h)]
    norm_num

theorem listSwap_length (l : List ℕ) (a b : ℕ) : (listSwap l a b).length = l.length := by
  simp [listSwap]

theorem listSwap_entries (l : List ℕ) (a b : ℕ) (h : ∀ v ∈ l, v < 256) :
    ∀ v ∈ listSwap l a b, v < 256 := by
  intro v hv
  unfold listSwap at hv
  rcases List.mem_or_eq_of_mem_set hv with hv2 | hveq
  · rcases List.mem_or_eq_of_mem_set hv2 with hv3 | hveq2
    · exact h v hv3
    · rw [hveq2]; exact permAt_lt l b h
  · rw [hveq]; exact permAt_lt l a h

theorem shuffleAux_length (c : ℕ) : ∀ (g : MTState) (l : List ℕ),
    (shuffleAux g l c).length = l.length := by
  induction c with
  | zero => intro g l; rfl
  | succ n ih =>
      intro g l
      rw [shuffleAux, ih, listSwap_length]

theorem shuffleAux_entries (c : ℕ) : ∀ (g : MTState) (l : List ℕ),
    (∀ v ∈ l, v < 256) → ∀ v ∈ shuffleAux g l c, v < 256 := by
  induction c with
  | zero => intro g l h; exact h
  | succ n ih =>
      intro g l h
      rw [shuffleAux]
      exact ih _ _ (listSwap_entries l (n + 1) _ h)

theorem mkPerm_length (seedVal : ℕ) : (mkPerm seedVal).length = 256 := by
  rw [mkPerm, shuffleAux_length, List.length_range]

theorem mkPerm_entries (seedVal : ℕ) : ∀ v ∈ mkPerm seedVal, v < 256 := by
  rw [mkPerm]
  exact shuffleAux_entries 255 _ _ (fun v hv => List.mem_range.mp hv)

theorem baseTableOf_length (seed : ℤ) (entropy : ℕ) :
    (baseTableOf seed entropy).length = 256 := by
  unfold baseTableOf
  split_ifs <;> exact mkPerm_length _

theorem baseTableOf_entries (seed : ℤ) (entropy : ℕ) :
    ∀ v ∈ baseTableOf seed entropy, v < 256 := by
  unfold baseTableOf
  split_ifs <;> exact mkPerm_entries _

theorem perlinTableOf_length (seed : ℤ) (entropy : ℕ) :
    (perlinTableOf seed entropy).length = 512 := by
  simp [perlinTableOf, baseTableOf_length]

theorem perlinTableOf_entries (seed : ℤ) (entropy : ℕ) :
    ∀ v ∈ perlinTableOf seed entropy, v < 256 := by
  intro v hv
  rcases List.mem_append.mp hv with h | h <;> exact baseTableOf_entries seed entropy v h

theorem simplexTableOf_length (seed : ℤ) (entropy : ℕ) :
    (simplexTableOf seed entropy).length = 512 := by
  simp [simplexTableOf]

theorem simplexTableOf_entries (seed : ℤ) (entropy : ℕ) :
    ∀ v ∈ simplexTableOf seed entropy, v < 256 := by
  intro v hv
  simp only [simplexTableOf, List.mem_map] at hv
  obtain ⟨i, _, hi⟩ := hv
  rw [← hi]
  exact permAt_lt _ _ (baseTableOf_entries seed entropy)

theorem intMask255_le (i : ℤ) : intMask255 i ≤ 255 := Nat.and_le_right

theorem intMask255_eq_emod (i : ℤ) : (intMask255 i : ℤ) = i.emod 256 := by
  unfold intMask255
  have h8 : (i.emod (2 ^ 32)).toNat &&& 255 = (i.emod (2 ^ 32)).toNat % 256 := by
    have := Nat.and_pow_two_sub_one_eq_mod (i.emod (2 ^ 32)).toNat 8
    norm_num at this
    exact this
  rw [h8]
  have hnn : 0 ≤ i.emod 4294967296 := Int.emod_nonneg i (by norm_num)
  push_cast
  rw [Int.toNat_of_nonneg hnn]
  exact Int.emod_emod_of_dvd i (by norm_num)

theorem fade_eq_specFade (t : ℚ) : fade t = specFade t := by
  unfold fade specFade; ring

theorem grad_eq_specGradVec (hash : ℕ) (x y : ℚ) :
    grad hash x y = (specGradVec (hash &&& 3)).1 * x + (specGradVec (hash &&& 3)).2 * y := by
  obtain ⟨k, hk, hkeq⟩ : ∃ k, k ≤ 3 ∧ hash &&& 3 = k := ⟨_, Nat.and_le_right, rfl⟩
  simp only [grad, specGradVec, hkeq]
  interval_cases k <;>
    simp only [show (0 : ℕ) &&& 1 = 0 from rfl, show (0 : ℕ) &&& 2 = 0 from rfl,
      show (1 : ℕ) &&& 1 = 1 from rfl, show (1 : ℕ) &&& 2 = 0 from rfl,
      show (2 : ℕ) &&& 1 = 0 from rfl, show (2 : ℕ) &&& 2 = 2 from rfl,
      show (3 : ℕ) &&& 1 = 1 from rfl, show (3 : ℕ) &&& 2 = 2 from rfl] <;>
    norm_num <;> ring

theorem lerp_bilinear (a b c d u v : ℚ) :
    lerp (lerp a b u) (lerp c d u) v =
      (1 - u) * (1 - v) * a + u * (1 - v) * b + (1 - u) * v * c + u * v * d := by
  unfold lerp; ring

theorem perlinMapCellEq (width height : ℤ) (scale : ℚ) (octaves : ℤ)
    (frequency persistence lacunarity base : ℚ) (seed : ℤ) (entropy : ℕ) (x y : ℕ)
    (hw : 0 < width) (hh : 0 < height) (hs : 0 < scale) (ho : 1 ≤ octaves)
    (hf : 0 < frequency) (hp0 : 0 ≤ persistence) (hp1 : persistence ≤ 1)
    (hl : 0 < lacunarity) (hx : x < width.toNat) (hy : y < height.toNat) :
    (((generate_perlin_map width height scale octaves frequency persistence
          lacunarity base seed entropy).toOption.getD []).getD y []).getD x 0 =
      (∑ o ∈ Finset.range octaves.toNat,
          persistence ^ o *
            noise (perlinTableOf seed entropy)
              (((x : ℚ) + base) / scale * (frequency * lacunarity ^ o))
              (((y : ℚ) + base) / scale * (frequency * lacunarity ^ o))) /
        ∑ o ∈ Finset.range octaves.toNat, persistence ^ o := by
  rw [generate_perlin_map, if_neg (by omega), if_neg (by omega), if_neg (not_le.mpr hs),
    if_neg (by omega), if_neg (not_le.mpr hf),
    if_neg (by push_neg; exact ⟨hp0, hp1⟩), if_neg (not_le.mpr hl)]
  simp only [Except.toOption, Option.getD_some]
  rw [rangeMapGetD _ _ y _ hy, rangeMapGetD _ _ x _ hx]
  rw [perlinCell, maxAmplitude, octaveLoop_closed, ampLoop_closed]
  simp only [one_mul]

theorem sample_cave_entropy_congr (x y : ℚ) (params : CaveParams) (e1 e2 : ℕ)
    (hseed : 0 ≤ params.seed) :
    sample_cave x y params e1 = sample_cave x y params e2 := by
  simp only [sample_cave, sample_cave_density, sample_perlin,
    perlinTableOf_congr params.seed e1 e2 hseed]

/-- C1: for every seed at least 0, two independent constructions of a noise
generator of the same kind with that seed (modelled by arbitrary distinct
entropy inputs, which only a negative seed consults) produce identical
permutation tables; consequently two separate calls to generate_perlin_map
or generate_simplex_map with identical arguments, and repeated calls to the
Perlin kernel at the same point on generators built from the same seed,
return identical results. -/
theorem sameSeed_determinism (seed : ℤ) (e1 e2 : ℕ) (x y : ℚ)
    (width height : ℤ) (scale : ℚ) (octaves : ℤ)
    (frequency persistence lacunarity base : ℚ) (hseed : 0 ≤ seed) :
    perlinTableOf seed e1 = perlinTableOf seed e2 ∧
    simplexTableOf seed e1 = simplexTableOf seed e2 ∧
    noise (perlinTableOf seed e1) x y = noise (perlinTableOf seed e2) x y ∧
    generate_perlin_map width height scale octaves frequency persistence
        lacunarity base seed e1 =
      generate_perlin_map width height scale octaves frequency persistence
        lacunarity base seed e2 ∧
    generate_simplex_map width height scale octaves persistence
        lacunarity base seed e1 =
      generate_simplex_map width height scale octaves persistence
        lacunarity base seed e2 := by
  have hp := perlinTableOf_congr seed e1 e2 hseed
  have hs := simplexTableOf_congr seed e1 e2 hseed
  refine ⟨hp, hs, by rw [hp], ?_, ?_⟩
  · simp only [generate_perlin_map, hp]
  · simp only [generate_simplex_map, hs]

/-- Witness for C1 at seed 0 with distinct entropies 0 and 1. -/
theorem sameSeed_determinism_holds :
    0 ≤ (0 : ℤ) ∧
    (perlinTableOf 0 0 = perlinTableOf 0 1 ∧
     simplexTableOf 0 0 = simplexTableOf 0 1 ∧
     noise (perlinTableOf 0 0) (1 / 2) (1 / 3) = noise (perlinTableOf 0 1) (1 / 2) (1 / 3) ∧
     generate_perlin_map 2 2 1 1 1 (1 / 2) 2 0 0 0 =
       generate_perlin_map 2 2 1 1 1 (1 / 2) 2 0 0 1 ∧
     generate_simplex_map 2 2 1 1 (1 / 2) 2 0 0 0 =
       generate_simplex_map 2 2 1 1 (1 / 2) 2 0 0 1) :=
  ⟨by decide,
   sameSeed_determinism 0 0 1 (1 / 2) (1 / 3) 2 2 1 1 1 (1 / 2) 2 0 (by decide)⟩

/-- C6: the Perlin kernel returns (v+1)/2 where v is the classic
construction: floor lattice cell, fractional offsets in [0,1) squared,
quintic fade 6 t^5 - 15 t^4 + 10 t^3 on both axes, corner hashes through
the doubled table with the p[p[X]+Y] double-lookup pattern, gradient per
corner from the 2-bit hash, and bilinear interpolation of the four corner
gradient dot products by the faded offsets. -/
theorem perlin_kernel_structure (p : List ℕ) (x y : ℚ) :
    noise p x y = specNoise p x y ∧
    0 ≤ x - (⌊x⌋ : ℚ) ∧ x - (⌊x⌋ : ℚ) < 1 ∧
    0 ≤ y - (⌊y⌋ : ℚ) ∧ y - (⌊y⌋ : ℚ) < 1 := by
  refine ⟨?_, ?_, ?_, ?_, ?_⟩
  · simp only [noise, specNoise]
    rw [fade_eq_specFade, fade_eq_specFade, grad_eq_specGradVec, grad_eq_specGradVec,
      grad_eq_specGradVec, grad_eq_specGradVec, lerp_bilinear]
  · rw [Int.self_sub_floor]; exact Int.fract_nonneg x
  · rw [Int.self_sub_floor]; exact Int.fract_lt_one x
  · rw [Int.self_sub_floor]; exact Int.fract_nonneg y
  · rw [Int.self_sub_floor]; exact Int.fract_lt_one y

/-- C8: for any coordinate whose floor fits in a 32-bit int, the C++ index
computation (int)floor(x) & 255 used by both kernels equals the
mathematical floor-based residue floor(x) mod 256, landing in [0,255] with
negative coordinates wrapping correctly. -/
theorem mask_is_floor_mod (x : ℚ) (hfit : |⌊x⌋| ≤ 2 ^ 31 - 1) :
    (intMask255 ⌊x⌋ : ℤ) = ⌊x⌋ % 256 ∧
    0 ≤ ⌊x⌋ % 256 ∧ ⌊x⌋ % 256 ≤ 255 ∧ intMask255 ⌊x⌋ ≤ 255 :=
  ⟨intMask255_eq_emod _, by omega, by omega, intMask255_le _⟩

/-- Witness for C8 at the negative non-integer coordinate -7/2. -/
theorem mask_is_floor_mod_holds :
    |⌊(-7 / 2 : ℚ)⌋| ≤ 2 ^ 31 - 1 ∧
    ((intMask255 ⌊(-7 / 2 : ℚ)⌋ : ℤ) = ⌊(-7 / 2 : ℚ)⌋ % 256 ∧
     0 ≤ ⌊(-7 / 2 : ℚ)⌋ % 256 ∧ ⌊(-7 / 2 : ℚ)⌋ % 256 ≤ 255 ∧
     intMask255 ⌊(-7 / 2 : ℚ)⌋ ≤ 255) :=
  ⟨by norm_num, mask_is_floor_mod (-7 / 2) (by norm_num)⟩

/-- C9: the permutation tables the two constructors build are 512 entries
long with every entry in [0,255], the masked lattice coordinates lie in
[0,255], and therefore every index either kernel builds for a read of its
own table is below 512: the compound Perlin indices p[X]+Y(+1) and
p[X+1]+Y(+1), and the simplex indices ii+perm[jj], ii+i1+perm[jj+j1] (for
both corner choices (i1,j1) = (1,0) and (0,1)) and ii+1+perm[jj+1], are
all at most 511, so no permutation lookup reads out of bounds. -/
theorem table_reads_in_bounds (seed : ℤ) (entropy : ℕ) (x y xin yin : ℚ) :
    (perlinTableOf seed entropy).length = 512 ∧
    (∀ v ∈ perlinTableOf seed entropy, v ≤ 255) ∧
    (simplexTableOf seed entropy).length = 512 ∧
    (∀ v ∈ simplexTableOf seed entropy, v ≤ 255) ∧
    intMask255 ⌊x⌋ ≤ 255 ∧ intMask255 ⌊y⌋ ≤ 255 ∧ intMask255 ⌊x⌋ + 1 < 512 ∧
    permAt (perlinTableOf seed entropy) (intMask255 ⌊x⌋) + intMask255 ⌊y⌋ < 512 ∧
    permAt (perlinTableOf seed entropy) (intMask255 ⌊x⌋) + intMask255 ⌊y⌋ + 1 < 512 ∧
    permAt (perlinTableOf seed entropy) (intMask255 ⌊x⌋ + 1) + intMask255 ⌊y⌋ < 512 ∧
    permAt (perlinTableOf seed entropy) (intMask255 ⌊x⌋ + 1) + intMask255 ⌊y⌋ + 1 < 512 ∧
    intMask255 ⌊yin + (xin + yin) * F2⌋ + 1 < 512 ∧
    intMask255 ⌊xin + (xin + yin) * F2⌋ +
        permAt (simplexTableOf seed entropy) (intMask255 ⌊yin + (xin + yin) * F2⌋) < 512 ∧
    intMask255 ⌊xin + (xin + yin) * F2⌋ + 1 +
        permAt (simplexTableOf seed entropy) (intMask255 ⌊yin + (xin + yin) * F2⌋) < 512 ∧
    intMask255 ⌊xin + (xin + yin) * F2⌋ +
        permAt (simplexTableOf seed entropy) (intMask255 ⌊yin + (xin + yin) * F2⌋ + 1) < 512 ∧
    intMask255 ⌊xin + (xin + yin) * F2⌋ + 1 +
        permAt (simplexTableOf seed entropy) (intMask255 ⌊yin + (xin + yin) * F2⌋ + 1) < 512 := by
  have hPe := perlinTableOf_entries seed entropy
  have hSe := simplexTableOf_entries seed entropy
  have hA := intMask255_le ⌊x⌋
  have hB := intMask255_le ⌊y⌋
  have hC := permAt_lt (perlinTableOf seed entropy) (intMask255 ⌊x⌋) hPe
  have hD := permAt_lt (perlinTableOf seed entropy) (intMask255 ⌊x⌋ + 1) hPe
  have hE := intMask255_le ⌊xin + (xin + yin) * F2⌋
  have hG := intMask255_le ⌊yin + (xin + yin) * F2⌋
  have hH := permAt_lt (simplexTableOf seed entropy)
    (intMask255 ⌊yin + (xin + yin) * F2⌋) hSe
  have hI := permAt_lt (simplexTableOf seed entropy)
    (intMask255 ⌊yin + (xin + yin) * F2⌋ + 1) hSe
  refine ⟨perlinTableOf_length seed entropy, fun v hv => by have := hPe v hv; omega,
    simplexTableOf_length seed entropy, fun v hv => by have := hSe v hv; omega,
    by omega, by omega, by omega, by omega, by omega, by omega, by omega,
    by omega, by omega, by omega, by omega, by omega⟩

/-- C10: once validation passes (octaves at least 1 and persistence in
[0,1], of which only nonnegativity is needed), the accumulated maxAmplitude
that both map generators divide by is at least 1, because the first octave
contributes amplitude 1; hence the final normalisation never divides by
zero. -/
theorem normalizer_at_least_one (octaves : ℤ) (persistence : ℚ)
    (hoct : 1 ≤ octaves) (hpers : 0 ≤ persistence) :
    1 ≤ maxAmplitude persistence octaves.toNat ∧
    maxAmplitude persistence octaves.toNat ≠ 0 := by
  have hc : maxAmplitude persistence octaves.toNat =
      ∑ o ∈ Finset.range octaves.toNat, persistence ^ o := by
    rw [maxAmplitude, ampLoop_closed]
    exact Finset.sum_congr rfl fun o _ => one_mul _
  have h1 : (1 : ℚ) ≤ ∑ o ∈ Finset.range octaves.toNat, persistence ^ o := by
    have hmem : 0 ∈ Finset.range octaves.toNat := Finset.mem_range.mpr (by omega)
    have := Finset.single_le_sum
      (f := fun o => persistence ^ o) (fun i _ => pow_nonneg hpers i) hmem
    simpa using this
  rw [hc]
  exact ⟨h1, by linarith⟩

/-- Witness for C10 at octaves 2, persistence 1/2. -/
theorem normalizer_at_least_one_holds :
    1 ≤ (2 : ℤ) ∧ 0 ≤ (1 / 2 : ℚ) ∧
    (1 ≤ maxAmplitude (1 / 2) (2 : ℤ).toNat ∧ maxAmplitude (1 / 2) (2 : ℤ).toNat ≠ 0) :=
  ⟨by decide, by norm_num, normalizer_at_least_one 2 (1 / 2) (by decide) (by norm_num)⟩

/-- C5: for valid parameters, cell (y,x) of generate_perlin_map equals the
sum over octaves o of amp_o times the kernel at ((x+base)/scale*freq_o,
(y+base)/scale*freq_o), divided by the sum of the amp_o, where amp_0 = 1,
freq_0 = frequency, amp progresses by persistence and freq by lacunarity
(hence amp_o = persistence^o and freq_o = frequency*lacunarity^o), the
kernel being the single-octave Perlin noise of the one generator
constructed from the seed. -/
theorem perlin_map_octave_formula (width height : ℤ) (scale : ℚ) (octaves : ℤ)
    (frequency persistence lacunarity base : ℚ) (seed : ℤ) (entropy : ℕ) (x y : ℕ)
    (hw : 0 < width) (hh : 0 < height) (hs : 0 < scale) (ho : 1 ≤ octaves)
    (hf : 0 < frequency) (hp0 : 0 ≤ persistence) (hp1 : persistence ≤ 1)
    (hl : 0 < lacunarity) (hx : x < width.toNat) (hy : y < height.toNat) :
    (((generate_perlin_map width height scale octaves frequency persistence
          lacunarity base seed entropy).toOption.getD []).getD y []).getD x 0 =
      (∑ o ∈ Finset.range octaves.toNat,
          persistence ^ o *
            noise (perlinTableOf seed entropy)
              (((x : ℚ) + base) / scale * (frequency * lacunarity ^ o))
              (((y : ℚ) + base) / scale * (frequency * lacunarity ^ o))) /
        ∑ o ∈ Finset.range octaves.toNat, persistence ^ o :=
  perlinMapCellEq width height scale octaves frequency persistence lacunarity base
    seed entropy x y hw hh hs ho hf hp0 hp1 hl hx hy

/-- Witness for C5 with a 1 by 1 map, octaves 1, all scales 1. -/
theorem perlin_map_octave_formula_holds :
    0 < (1 : ℤ) ∧ 0 < (1 : ℚ) ∧ 1 ≤ (1 : ℤ) ∧ 0 ≤ (1 / 2 : ℚ) ∧ (1 / 2 : ℚ) ≤ 1 ∧
    (0 : ℕ) < (1 : ℤ).toNat ∧
    (((generate_perlin_map 1 1 1 1 1 (1 / 2) 1 0 0 0).toOption.getD []).getD 0 []).getD 0 0 =
      (∑ o ∈ Finset.range (1 : ℤ).toNat,
          (1 / 2 : ℚ) ^ o *
            noise (perlinTableOf 0 0)
              ((((0 : ℕ) : ℚ) + 0) / 1 * (1 * 1 ^ o))
              ((((0 : ℕ) : ℚ) + 0) / 1 * (1 * 1 ^ o))) /
        ∑ o ∈ Finset.range (1 : ℤ).toNat, (1 / 2 : ℚ) ^ o :=
  ⟨by decide, by norm_num, by decide, by norm_num, by norm_num, by decide,
   perlin_map_octave_formula 1 1 1 1 1 (1 / 2) 1 0 0 0 0 0 (by decide) (by decide)
     (by norm_num) (by decide) (by norm_num) (by norm_num) (by norm_num) (by norm_num)
     (by decide) (by decide)⟩

/-- C3: for valid parameters and any in-range grid coordinate, full-map
generation and the independent single-point lookup sample_perlin agree
exactly at shared coordinates (entropy arguments differ on the two sides;
a nonnegative seed makes them irrelevant). -/
theorem map_matches_point_sampling (width height : ℤ) (scale : ℚ) (octaves : ℤ)
    (frequency persistence lacunarity base : ℚ) (seed : ℤ) (e1 e2 : ℕ) (wx wy : ℕ)
    (hseed : 0 ≤ seed) (hw : 0 < width) (hh : 0 < height) (hs : 0 < scale)
    (ho : 1 ≤ octaves) (hf : 0 < frequency) (hp0 : 0 ≤ persistence)
    (hp1 : persistence ≤ 1) (hl : 0 < lacunarity)
    (hx : wx < width.toNat) (hy : wy < height.toNat) :
    (((generate_perlin_map width height scale octaves frequency persistence
          lacunarity base seed e1).toOption.getD []).getD wy []).getD wx 0 =
      sample_perlin (wx : ℚ) (wy : ℚ) scale octaves frequency persistence
        lacunarity base seed e2 := by
  rw [perlinMapCellEq width height scale octaves frequency persistence lacunarity base
    seed e1 wx wy hw hh hs ho hf hp0 hp1 hl hx hy]
  simp only [sample_perlin, perlinTableOf_congr seed e1 e2 hseed]

/-- Witness for C3 with a 1 by 1 map, octaves 1, distinct entropies. -/
theorem map_matches_point_sampling_holds :
    0 ≤ (0 : ℤ) ∧ 0 < (1 : ℤ) ∧ 0 < (1 : ℚ) ∧ 1 ≤ (1 : ℤ) ∧ 0 ≤ (1 / 2 : ℚ) ∧
    (1 / 2 : ℚ) ≤ 1 ∧ (0 : ℕ) < (1 : ℤ).toNat ∧
    (((generate_perlin_map 1 1 1 1 1 (1 / 2) 1 0 0 0).toOption.getD []).getD 0 []).getD 0 0 =
      sample_perlin ((0 : ℕ) : ℚ) ((0 : ℕ) : ℚ) 1 1 1 (1 / 2) 1 0 0 1 :=
  ⟨by decide, by decide, by norm_num, by decide, by norm_num, by norm_num, by decide,
   map_matches_point_sampling 1 1 1 1 1 (1 / 2) 1 0 0 0 1 0 0 (by decide) (by decide)
     (by decide) (by norm_num) (by decide) (by norm_num) (by norm_num) (by norm_num)
     (by norm_num) (by decide) (by decide)⟩

/-- C4: for every chunk index, positive chunk size and in-range local cell,
the chunk cell equals the independent single-coordinate cave sample at the
corresponding world coordinate chunk index times chunk size plus local
cell, exactly (hence within any tolerance); the entropy inputs differ and a
nonnegative seed makes them irrelevant. -/
theorem chunk_matches_point_sampling (chunkX chunkY chunkSize : ℤ)
    (params : CaveParams) (e1 e2 : ℕ) (lx ly : ℕ)
    (hseed : 0 ≤ params.seed) (hcs : 0 < chunkSize)
    (hlx : lx < chunkSize.toNat) (hly : ly < chunkSize.toNat) :
    ((generate_cave_chunk chunkX chunkY chunkSize params e1).getD ly []).getD lx false =
      sample_cave (((chunkX * chunkSize + (lx : ℤ) : ℤ) : ℚ))
        (((chunkY * chunkSize + (ly : ℤ) : ℤ) : ℚ)) params e2 := by
  rw [generate_cave_chunk, rangeMapGetD _ _ ly _ hly, rangeMapGetD _ _ lx _ hlx,
    sample_cave_entropy_congr _ _ params e1 e2 hseed]
  congr 1 <;> push_cast <;> ring

/-- Witness for C4 with chunk (0,0), size 1, a seeded parameter set. -/
theorem chunk_matches_point_sampling_holds :
    0 ≤ (CaveParams.mk 30 3 (1 / 2) 2 42 (1 / 2) false 3 4 3 true 50).seed ∧
    0 < (1 : ℤ) ∧ (0 : ℕ) < (1 : ℤ).toNat ∧
    ((generate_cave_chunk 0 0 1 (CaveParams.mk 30 3 (1 / 2) 2 42 (1 / 2) false 3 4 3 true 50)
          0).getD 0 []).getD 0 false =
      sample_cave (((0 * 1 + ((0 : ℕ) : ℤ) : ℤ) : ℚ)) (((0 * 1 + ((0 : ℕ) : ℤ) : ℤ) : ℚ))
        (CaveParams.mk 30 3 (1 / 2) 2 42 (1 / 2) false 3 4 3 true 50) 1 :=
  ⟨by decide, by decide, by decide,
   chunk_matches_point_sampling 0 0 1 (CaveParams.mk 30 3 (1 / 2) 2 42 (1 / 2) false 3 4 3 true 50)
     0 1 0 0 (by decide) (by decide) (by decide) (by decide)⟩

/-- C7 counterexample: at width 1, height 1, scale 1, octaves 1,
frequency 0, persistence 1/2, lacunarity 1, none of the conditions the
claim lists holds, yet generate_perlin_map raises an error, because the
source additionally validates frequency. -/
theorem validation_frequency_raises :
    ¬((1 : ℤ) ≤ 0) ∧ ¬((1 : ℚ) ≤ 0) ∧ ¬((1 : ℤ) < 1) ∧
    (0 ≤ (1 / 2 : ℚ) ∧ (1 / 2 : ℚ) ≤ 1) ∧
    exceptOk (generate_perlin_map 1 1 1 1 0 (1 / 2) 1 0 0 0) = false :=
  ⟨by norm_num, by norm_num, by norm_num, by norm_num, by rfl⟩

/-- C7 amended: the two map generators fail exactly when width, height,
scale, octaves, persistence or lacunarity is invalid, or, for the Perlin
generator only, when frequency is not positive; on failure the result is
the error alone, with no grid. -/
theorem validation_iff (width height : ℤ) (scale : ℚ) (octaves : ℤ)
    (frequency persistence lacunarity base : ℚ) (seed : ℤ) (entropy : ℕ) :
    (exceptOk (generate_perlin_map width height scale octaves frequency persistence
          lacunarity base seed entropy) = false ↔
        width ≤ 0 ∨ height ≤ 0 ∨ scale ≤ 0 ∨ octaves < 1 ∨ frequency ≤ 0 ∨
          persistence < 0 ∨ 1 < persistence ∨ lacunarity ≤ 0) ∧
    (exceptOk (generate_simplex_map width height scale octaves persistence
          lacunarity base seed entropy) = false ↔
        width ≤ 0 ∨ height ≤ 0 ∨ scale ≤ 0 ∨ octaves < 1 ∨
          persistence < 0 ∨ 1 < persistence ∨ lacunarity ≤ 0) := by
  constructor
  · rw [generate_perlin_map]
    split_ifs with h1 h2 h3 h4 h5 h6 h7 <;> simp [exceptOk] <;> push_neg at * <;> tauto
  · rw [generate_simplex_map]
    split_ifs with h1 h2 h3 h4 h5 h6 <;> simp [exceptOk] <;> push_neg at * <;> tauto

end Noise
